import Mathlib

/-!
Verification of the flat-coordinate codec in `encoding/wkbcommon/wkbcommon.go`
(go-geom).

Modelling conventions:
* A byte stream is a `List Nat` (each entry a byte value `< 256`); reading
  consumes a prefix and returns the remaining suffix.
* A 64-bit float scalar is modelled by its IEEE-754 bit pattern, a `Nat`
  (`< 2^64`).  `binary.Read`/`binary.Write` on `float64` move the bit
  pattern verbatim (`math.Float64bits` / `math.Float64frombits` are
  mutually inverse on all bit patterns), so the codec's behaviour is
  exactly a function of bit patterns.  In particular `1.0` is the pattern
  `0x3FF0000000000000`, `2.0` is `0x4000000000000000`, and so on.
* Go machine integers are modelled by `Nat` with explicit `% 2^32`
  where a `uint32` conversion occurs.
* Fallible reads return `Except WkbError`; the `error` interface values
  produced by this file of the Go source are the variants of `WkbError`
  (`ioError` stands for any error propagated from the underlying
  `io.Reader`, such as a short read).
* `WriteFlatCoords2` slices `flatCoords[offset:end]`; Go panics when the
  slice bounds are invalid, which we model by `Option` (`none` = panic).
-/

/-- View of `Except` as a sum, for deciding equalities of results. -/
def exceptToSum : Except ε α → ε ⊕ α
  | .error e => .inl e
  | .ok a => .inr a

instance [DecidableEq ε] [DecidableEq α] : DecidableEq (Except ε α) := fun a b =>
  decidable_of_iff (exceptToSum a = exceptToSum b)
    (by cases a <;> cases b <;> simp [exceptToSum])

/-- A byte order, `binary.BigEndian` / `binary.LittleEndian`. -/
inductive ByteOrder where
  | bigEndian : ByteOrder
  | littleEndian : ByteOrder
deriving DecidableEq

/-- Byte order ID `XDRID = 0` (src line 12). -/
def XDRID : Nat := 0

/-- Byte order ID `NDRID = 1` (src line 13). -/
def NDRID : Nat := 1

/-- `XDR = binary.BigEndian` (src line 18). -/
def XDR : ByteOrder := .bigEndian

/-- `NDR = binary.LittleEndian` (src line 19). -/
def NDR : ByteOrder := .littleEndian

/-- Big-endian bytes of `v` on `k` bytes (most significant first); the
value is implicitly truncated to `v % 256^k`, as a fixed-width machine
write is. -/
def beBytes : Nat → Nat → List Nat
  | 0, _ => []
  | k + 1, v => beBytes k (v / 256) ++ [v % 256]

/-- Value of a big-endian byte string. -/
def beVal (bs : List Nat) : Nat :=
  bs.foldl (fun acc b => acc * 256 + b) 0

/-- Encode `v` on `k` bytes in the given byte order
(`binary.ByteOrder.PutUint32`/`PutUint64`). -/
def ByteOrder.encodeBytes : ByteOrder → Nat → Nat → List Nat
  | .bigEndian, k, v => beBytes k v
  | .littleEndian, k, v => (beBytes k v).reverse

/-- Decode a byte string in the given byte order
(`binary.ByteOrder.Uint32`/`Uint64`). -/
def ByteOrder.decodeBytes : ByteOrder → List Nat → Nat
  | .bigEndian, bs => beVal bs
  | .littleEndian, bs => beVal bs.reverse

/-- The error values produced by the modelled part of the Go source:
`ErrGeometryTooLarge{Level, N, Limit}` (src lines 77-81),
`ErrUnknownByteOrder` (src line 23), and any error coming from the
underlying stream (`io` errors such as a short read). -/
inductive WkbError where
  | ioError : WkbError
  | geometryTooLarge (level : Nat) (n : Nat) (limit : Nat) : WkbError
  | unknownByteOrder (id : Nat) : WkbError
deriving DecidableEq

/-- `MaxGeometryElements` (src lines 69-74): the per-level element-count
limits, `[4]uint32{0, 1 << 20, 1 << 15, 1 << 10}`. -/
def MaxGeometryElements : Array Nat := #[0, 1 <<< 20, 1 <<< 15, 1 <<< 10]

/-- `binary.Read(r, byteOrder, &n)` for a `uint32`: consume 4 bytes and
decode them; fail with the stream's error if fewer than 4 bytes remain. -/
def readUInt32 (byteOrder : ByteOrder) (s : List Nat) :
    Except WkbError (Nat × List Nat) :=
  if 4 ≤ s.length then
    .ok (byteOrder.decodeBytes (s.take 4), s.drop 4)
  else
    .error .ioError

/-- `binary.Read(r, byteOrder, &flatCoords)` for a `[]float64` of length
`k`: consume `8 * k` bytes, decoding each group of 8 as one scalar; fail
with the stream's error on a short stream. -/
def readScalars (byteOrder : ByteOrder) : Nat → List Nat →
    Except WkbError (List Nat × List Nat)
  | 0, s => .ok ([], s)
  | k + 1, s =>
    if 8 ≤ s.length then
      match readScalars byteOrder k (s.drop 8) with
      | .ok (vs, rest) => .ok (byteOrder.decodeBytes (s.take 8) :: vs, rest)
      | .error e => .error e
    else
      .error .ioError

/-- `binary.Write(w, byteOrder, coords)` for a `[]float64`: each scalar
becomes 8 bytes in the given byte order, in sequence. -/
def encodeScalars (byteOrder : ByteOrder) : List Nat → List Nat
  | [] => []
  | v :: vs => byteOrder.encodeBytes 8 v ++ encodeScalars byteOrder vs

/-- `ReadFlatCoords1` (src lines 111-124): read a `uint32` count `n`,
fail with `ErrGeometryTooLarge{Level: 1, N: n, Limit: MaxGeometryElements[1]}`
if `n > MaxGeometryElements[1]`, otherwise read `n * stride` scalars. -/
def ReadFlatCoords1 (byteOrder : ByteOrder) (stride : Nat) (s : List Nat) :
    Except WkbError (List Nat × List Nat) :=
  match readUInt32 byteOrder s with
  | .error e => .error e
  | .ok (n, s1) =>
    if n > MaxGeometryElements[1]! then
      .error (.geometryTooLarge 1 n (MaxGeometryElements[1]!))
    else
      readScalars byteOrder (n * stride) s1

/-- The loop of `ReadFlatCoords2` (src lines 137-144): `n` iterations of
`ReadFlatCoords1`, appending the coordinates to the running buffer and
recording the buffer's new total length in `ends` after each block. -/
def readFlatCoords2Loop (byteOrder : ByteOrder) (stride : Nat) :
    Nat → List Nat → List Nat → List Int →
    Except WkbError (List Nat × List Int × List Nat)
  | 0, s, flatCoordss, ends => .ok (flatCoordss, ends, s)
  | k + 1, s, flatCoordss, ends =>
    match ReadFlatCoords1 byteOrder stride s with
    | .error e => .error e
    | .ok (flatCoords, s1) =>
      readFlatCoords2Loop byteOrder stride k s1 (flatCoordss ++ flatCoords)
        (ends ++ [((flatCoordss ++ flatCoords).length : Int)])

/-- `ReadFlatCoords2` (src lines 127-146): read a `uint32` outer count `n`,
fail with `ErrGeometryTooLarge{Level: 2, N: n, Limit: MaxGeometryElements[2]}`
if `n > MaxGeometryElements[2]`, otherwise read `n` level-1 blocks. -/
def ReadFlatCoords2 (byteOrder : ByteOrder) (stride : Nat) (s : List Nat) :
    Except WkbError (List Nat × List Int × List Nat) :=
  match readUInt32 byteOrder s with
  | .error e => .error e
  | .ok (n, s1) =>
    if n > MaxGeometryElements[2]! then
      .error (.geometryTooLarge 2 n (MaxGeometryElements[2]!))
    else
      readFlatCoords2Loop byteOrder stride n s1 [] []

/-- `WriteFlatCoords1` (src lines 154-159): write `uint32(len(coords)/stride)`
followed by every scalar of `coords`.  (The write target is an in-memory
buffer, so the operation is pure and total.) -/
def WriteFlatCoords1 (byteOrder : ByteOrder) (coords : List Nat) (stride : Nat) :
    List Nat :=
  byteOrder.encodeBytes 4 ((coords.length / stride) % 2 ^ 32) ++
    encodeScalars byteOrder coords

/-- Go slice expression `xs[lo:hi]`: defined when `0 ≤ lo ≤ hi ≤ len(xs)`,
a run-time panic (modelled as `none`) otherwise. -/
def goSlice (xs : List Nat) (lo hi : Int) : Option (List Nat) :=
  if 0 ≤ lo ∧ lo ≤ hi ∧ hi ≤ (xs.length : Int) then
    some ((xs.take hi.toNat).drop lo.toNat)
  else
    none

/-- The loop of `WriteFlatCoords2` (src lines 167-173): walk `ends` with a
running `offset`, level-1-writing the slice `flatCoords[offset:end]` at
each step. -/
def writeFlatCoords2Loop (byteOrder : ByteOrder) (stride : Nat)
    (flatCoords : List Nat) : Int → List Int → Option (List Nat)
  | _, [] => some []
  | offset, e :: rest =>
    match goSlice flatCoords offset e with
    | none => none
    | some seg =>
      match writeFlatCoords2Loop byteOrder stride flatCoords e rest with
      | none => none
      | some tail => some (WriteFlatCoords1 byteOrder seg stride ++ tail)

/-- `WriteFlatCoords2` (src lines 162-174): write `uint32(len(ends))`,
then the level-1 blocks of the successive slices of `flatCoords`
delimited by `ends`. -/
def WriteFlatCoords2 (byteOrder : ByteOrder) (flatCoords : List Nat)
    (ends : List Int) (stride : Nat) : Option (List Nat) :=
  match writeFlatCoords2Loop byteOrder stride flatCoords 0 ends with
  | none => none
  | some body => some (byteOrder.encodeBytes 4 (ends.length % 2 ^ 32) ++ body)

/-- Modelled from the spec: the byte-order resolution switch is not part of
src/ (it lives in the wkb/ewkb header readers; src/ only defines the
constants `XDRID`, `NDRID`, the orders `XDR`, `NDR` and the
`ErrUnknownByteOrder` carrier).  Spec §4.1: order id 0 resolves to
big-endian, id 1 to little-endian, and any other id fails with
`UnknownByteOrder(id)`. -/
def resolveByteOrder (id : Nat) : Except WkbError ByteOrder :=
  if id = XDRID then .ok XDR
  else if id = NDRID then .ok NDR
  else .error (.unknownByteOrder id)

/-- Specification helper: the stream state after `j` successful
`ReadFlatCoords1` blocks (the error, if the `j`-th block fails). -/
def readBlocks (byteOrder : ByteOrder) (stride : Nat) :
    Nat → List Nat → Except WkbError (List Nat)
  | 0, s => .ok s
  | j + 1, s =>
    match ReadFlatCoords1 byteOrder stride s with
    | .error e => .error e
    | .ok (_, s1) => readBlocks byteOrder stride j s1

/-- Specification helper: last element of a list, `d` when empty. -/
def lastOr (d : Int) : List Int → Int
  | [] => d
  | e :: rest => lastOr e rest

/-- Specification helper: `ends` (as list offsets) is a well-formed,
stride-aligned, within-limit partition of a buffer of length `fcLen`
into sub-arrays, starting at offset `ofs`: offsets are monotone, stay
within the buffer, every sub-array length is a multiple of `stride` with
at most `MaxGeometryElements[1]` tuples, and the final offset is exactly
`fcLen`. -/
def validEndsNat (fcLen stride : Nat) : Nat → List Nat → Bool
  | ofs, [] => ofs == fcLen
  | ofs, e :: rest =>
    decide (ofs ≤ e) && decide (e ≤ fcLen) && ((e - ofs) % stride == 0) &&
      decide ((e - ofs) / stride ≤ MaxGeometryElements[1]!) &&
      validEndsNat fcLen stride e rest

/-! ## Byte-level encode/decode lemmas -/

lemma beBytes_length : ∀ k v : Nat, (beBytes k v).length = k
  | 0, _ => rfl
  | k + 1, v => by simp [beBytes, beBytes_length k]

lemma beVal_append (xs : List Nat) (b : Nat) :
    beVal (xs ++ [b]) = beVal xs * 256 + b := by
  simp [beVal, List.foldl_append]

lemma beVal_beBytes : ∀ k v : Nat, beVal (beBytes k v) = v % 256 ^ k
  | 0, v => by simp [beBytes, beVal, Nat.mod_one]
  | k + 1, v => by
    rw [beBytes, beVal_append, beVal_beBytes k (v / 256), pow_succ,
      mul_comm ((256 : Nat) ^ k) 256, Nat.mod_mul]
    ring

lemma encodeBytes_length (bo : ByteOrder) (k v : Nat) :
    (bo.encodeBytes k v).length = k := by
  cases bo <;> simp [ByteOrder.encodeBytes, beBytes_length]

lemma decodeBytes_encodeBytes (bo : ByteOrder) (k v : Nat) :
    bo.decodeBytes (bo.encodeBytes k v) = v % 256 ^ k := by
  cases bo <;>
    simp [ByteOrder.encodeBytes, ByteOrder.decodeBytes, beVal_beBytes]

lemma readUInt32_encode (bo : ByteOrder) (v : Nat) (tail : List Nat) :
    readUInt32 bo (bo.encodeBytes 4 v ++ tail) = .ok (v % 2 ^ 32, tail) := by
  have hlen := encodeBytes_length bo 4 v
  have h4 : 4 ≤ (bo.encodeBytes 4 v ++ tail).length := by
    rw [List.length_append, hlen]; omega
  rw [readUInt32, if_pos h4, List.take_left' hlen, List.drop_left' hlen,
    decodeBytes_encodeBytes]
  norm_num

lemma encodeScalars_length (bo : ByteOrder) :
    ∀ coords : List Nat, (encodeScalars bo coords).length = 8 * coords.length
  | [] => rfl
  | v :: vs => by
    simp [encodeScalars, encodeBytes_length, encodeScalars_length bo vs]
    ring

lemma readScalars_encodeScalars (bo : ByteOrder) :
    ∀ (coords rest : List Nat), (∀ v ∈ coords, v < 2 ^ 64) →
      readScalars bo coords.length (encodeScalars bo coords ++ rest) =
        .ok (coords, rest)
  | [], rest, _ => by simp [encodeScalars, readScalars]
  | v :: vs, rest, hv => by
    have h8 := encodeBytes_length bo 8 v
    have hassoc : encodeScalars bo (v :: vs) ++ rest =
        bo.encodeBytes 8 v ++ (encodeScalars bo vs ++ rest) := by
      simp [encodeScalars]
    have hlen : 8 ≤ (encodeScalars bo (v :: vs) ++ rest).length := by
      rw [hassoc, List.length_append, h8]; omega
    have hvlt : v < 2 ^ 64 := hv v (by simp)
    show readScalars bo (vs.length + 1) (encodeScalars bo (v :: vs) ++ rest) = _
    rw [readScalars, if_pos hlen, hassoc, List.take_left' h8,
      List.drop_left' h8,
      readScalars_encodeScalars bo vs rest (fun w hw => hv w (by simp [hw])),
      decodeBytes_encodeBytes]
    have h256 : (256 : Nat) ^ 8 = 2 ^ 64 := by norm_num
    rw [h256, Nat.mod_eq_of_lt hvlt]

lemma maxGeometryElements_one : MaxGeometryElements[1]! = 2 ^ 20 := by decide

lemma maxGeometryElements_two : MaxGeometryElements[2]! = 2 ^ 15 := by decide

/-- Level-1 write/read roundtrip, with an arbitrary stream continuation. -/
lemma read1_of_write1 (bo : ByteOrder) (stride : Nat) (coords rest : List Nat)
    (hd : stride ∣ coords.length)
    (hn : coords.length / stride ≤ MaxGeometryElements[1]!)
    (hv : ∀ v ∈ coords, v < 2 ^ 64) :
    ReadFlatCoords1 bo stride (WriteFlatCoords1 bo coords stride ++ rest) =
      .ok (coords, rest) := by
  have hlt : coords.length / stride < 2 ^ 32 := by
    rw [maxGeometryElements_one] at hn
    calc coords.length / stride ≤ 2 ^ 20 := hn
      _ < 2 ^ 32 := by norm_num
  have hmod : coords.length / stride % 2 ^ 32 = coords.length / stride :=
    Nat.mod_eq_of_lt hlt
  rw [ReadFlatCoords1, WriteFlatCoords1, List.append_assoc, readUInt32_encode]
  simp only [hmod]
  rw [if_neg (Nat.not_lt.mpr hn), Nat.div_mul_cancel hd]
  exact readScalars_encodeScalars bo coords rest hv

/-! ## Level-2 loop lemmas -/

lemma lastOr_cons (d e : Int) (l : List Int) : lastOr d (e :: l) = lastOr e l := rfl

lemma lastOr_cons_irrel (d1 d2 e : Int) (l : List Int) :
    lastOr d1 (e :: l) = lastOr d2 (e :: l) := rfl

lemma chain_le_lastOr :
    ∀ (l : List Int) (a : Int), List.Chain' (· ≤ ·) (a :: l) → a ≤ lastOr a l
  | [], a, _ => le_refl a
  | b :: l, a, h => by
    rw [List.chain'_cons] at h
    exact le_trans h.1 (by rw [lastOr_cons]; exact chain_le_lastOr l b h.2)

lemma goSlice_natCast (xs : List Nat) (lo hi : Nat) (h1 : lo ≤ hi)
    (h2 : hi ≤ xs.length) :
    goSlice xs (lo : Int) (hi : Int) = some ((xs.take hi).drop lo) := by
  rw [goSlice, if_pos]
  · simp
  · refine ⟨Int.natCast_nonneg lo, ?_, ?_⟩ <;> exact_mod_cast (by omega)

lemma writeLoop_isSome_of_chain (bo : ByteOrder) (stride : Nat) (fc : List Nat) :
    ∀ (ends : List Int) (ofs : Int), 0 ≤ ofs →
      List.Chain' (· ≤ ·) (ofs :: ends) → lastOr ofs ends ≤ (fc.length : Int) →
      ∃ body, writeFlatCoords2Loop bo stride fc ofs ends = some body
  | [], ofs, _, _, _ => ⟨[], rfl⟩
  | e :: rest, ofs, h0, hchain, hlast => by
    rw [List.chain'_cons] at hchain
    have hofs_e : ofs ≤ e := hchain.1
    have he_last : e ≤ lastOr e rest := chain_le_lastOr rest e hchain.2
    have hlast' : lastOr e rest ≤ (fc.length : Int) := by
      rwa [lastOr_cons] at hlast
    have hslice : goSlice fc ofs e = some ((fc.take e.toNat).drop ofs.toNat) := by
      rw [goSlice, if_pos ⟨h0, hofs_e, le_trans he_last hlast'⟩]
    obtain ⟨body, hbody⟩ := writeLoop_isSome_of_chain bo stride fc rest e
      (le_trans h0 hofs_e) hchain.2 hlast'
    exact ⟨_, by rw [writeFlatCoords2Loop, hslice, hbody]⟩

lemma drop_take_append (fc : List Nat) (ofs e : Nat) (h1 : ofs ≤ e)
    (h2 : e ≤ fc.length) :
    (fc.take e).drop ofs ++ fc.drop e = fc.drop ofs := by
  conv_rhs => rw [← List.take_append_drop e fc]
  rw [List.drop_append_eq_append_drop, List.length_take,
    Nat.min_eq_left h2, Nat.sub_eq_zero_of_le h1, List.drop_zero]

lemma writeReadLoop (bo : ByteOrder) (stride : Nat) (fc : List Nat)
    (hv : ∀ v ∈ fc, v < 2 ^ 64) :
    ∀ (ends : List Nat) (acc : List Nat) (accEnds : List Int)
      (body rest : List Nat),
      validEndsNat fc.length stride acc.length ends = true →
      writeFlatCoords2Loop bo stride fc (acc.length : Int)
        (ends.map (fun x : Nat => (x : Int))) = some body →
      readFlatCoords2Loop bo stride ends.length (body ++ rest) acc accEnds =
        .ok (acc ++ fc.drop acc.length,
             accEnds ++ ends.map (fun x : Nat => (x : Int)), rest)
  | [], acc, accEnds, body, rest, hval, hw => by
    simp only [validEndsNat, beq_iff_eq] at hval
    simp only [List.map_nil, writeFlatCoords2Loop, Option.some.injEq] at hw
    subst hw
    simp [readFlatCoords2Loop, hval, List.drop_length]
  | e :: rest', acc, accEnds, body, rest, hval, hw => by
    simp only [validEndsNat, Bool.and_eq_true, decide_eq_true_eq,
      beq_iff_eq] at hval
    obtain ⟨⟨⟨⟨h1, h2⟩, h3⟩, h4⟩, h5⟩ := hval
    have hslice := goSlice_natCast fc acc.length e h1 h2
    rw [List.map_cons, writeFlatCoords2Loop, hslice] at hw
    set seg := (fc.take e).drop acc.length with hseg
    have hsl : seg.length = e - acc.length := by
      rw [hseg, List.length_drop, List.length_take, Nat.min_eq_left h2]
    cases hrec : writeFlatCoords2Loop bo stride fc (e : Int)
        (rest'.map (fun x : Nat => (x : Int))) with
    | none => rw [hrec] at hw; cases hw
    | some tail =>
      rw [hrec, Option.some.injEq] at hw
      subst hw
      have hd : stride ∣ seg.length := by
        rw [hsl]; exact Nat.dvd_of_mod_eq_zero h3
      have hn : seg.length / stride ≤ MaxGeometryElements[1]! := by
        rw [hsl]; exact h4
      have hv' : ∀ v ∈ seg, v < 2 ^ 64 := fun v hm =>
        hv v (List.take_subset e fc (List.drop_subset acc.length (fc.take e) hm))
      have hlen2 : (acc ++ seg).length = e := by
        rw [List.length_append, hsl]; omega
      show readFlatCoords2Loop bo stride (rest'.length + 1) _ acc accEnds = _
      rw [readFlatCoords2Loop, List.append_assoc,
        read1_of_write1 bo stride seg (tail ++ rest) hd hn hv']
      have hIH := writeReadLoop bo stride fc hv rest' (acc ++ seg)
        (accEnds ++ [((acc ++ seg).length : Int)]) tail rest
        (by rw [hlen2]; exact h5) (by rw [hlen2]; exact hrec)
      change readFlatCoords2Loop bo stride rest'.length (tail ++ rest)
        (acc ++ seg) (accEnds ++ [((acc ++ seg).length : Int)]) = _
      rw [hIH, hlen2]
      have hfc : seg ++ fc.drop e = fc.drop acc.length :=
        drop_take_append fc acc.length e h1 h2
      rw [List.append_assoc, List.append_assoc, hfc]
      simp

lemma readLoop_spec (bo : ByteOrder) (stride : Nat) :
    ∀ (k : Nat) (s acc : List Nat) (accEnds : List Int)
      (fc : List Nat) (ends : List Int) (rest : List Nat),
      readFlatCoords2Loop bo stride k s acc accEnds = .ok (fc, ends, rest) →
      ∃ newEnds : List Int,
        ends = accEnds ++ newEnds ∧ newEnds.length = k ∧
        List.Chain' (· ≤ ·) ((acc.length : Int) :: newEnds) ∧
        lastOr 0 ((acc.length : Int) :: newEnds) = (fc.length : Int)
  | 0, s, acc, accEnds, fc, ends, rest, h => by
    simp only [readFlatCoords2Loop, Except.ok.injEq, Prod.mk.injEq] at h
    obtain ⟨hfc, hends, -⟩ := h
    exact ⟨[], by simp [hends.symm, hfc, lastOr]⟩
  | k + 1, s, acc, accEnds, fc, ends, rest, h => by
    rw [readFlatCoords2Loop] at h
    cases hr : ReadFlatCoords1 bo stride s with
    | error e => rw [hr] at h; cases h
    | ok p =>
      obtain ⟨fc1, s1⟩ := p
      rw [hr] at h
      obtain ⟨newEnds', hends, hlen, hchain, hlast⟩ :=
        readLoop_spec bo stride k s1 (acc ++ fc1)
          (accEnds ++ [((acc ++ fc1).length : Int)]) fc ends rest h
      refine ⟨((acc ++ fc1).length : Int) :: newEnds', ?_, by simp [hlen], ?_, ?_⟩
      · rw [hends]; simp
      · rw [List.chain'_cons]
        exact ⟨by exact_mod_cast (by simp [List.length_append] : acc.length ≤ (acc ++ fc1).length), hchain⟩
      · exact (lastOr_cons_irrel ((acc : List Nat).length : Int) 0 _ _).trans hlast

lemma readLoop_error (bo : ByteOrder) (stride : Nat) :
    ∀ (j k : Nat) (s s2 : List Nat) (acc : List Nat) (accEnds : List Int)
      (e : WkbError),
      j < k → readBlocks bo stride j s = .ok s2 →
      ReadFlatCoords1 bo stride s2 = .error e →
      readFlatCoords2Loop bo stride k s acc accEnds = .error e
  | 0, k, s, s2, acc, accEnds, e, hjk, hb, hr1 => by
    cases k with
    | zero => omega
    | succ k' =>
      simp only [readBlocks, Except.ok.injEq] at hb
      subst hb
      rw [readFlatCoords2Loop, hr1]
  | j + 1, k, s, s2, acc, accEnds, e, hjk, hb, hr1 => by
    rw [readBlocks] at hb
    cases hr : ReadFlatCoords1 bo stride s with
    | error e' => rw [hr] at hb; cases hb
    | ok p =>
      obtain ⟨fc1, s1⟩ := p
      rw [hr] at hb
      cases k with
      | zero => omega
      | succ k' =>
        rw [readFlatCoords2Loop, hr]
        exact readLoop_error bo stride j k' s1 s2 (acc ++ fc1)
          (accEnds ++ [((acc ++ fc1).length : Int)]) e (by omega) hb hr1

lemma writeLoop_isSome_of_valid (bo : ByteOrder) (stride : Nat) (fc : List Nat) :
    ∀ (ends : List Nat) (ofs : Nat),
      validEndsNat fc.length stride ofs ends = true →
      ∃ body, writeFlatCoords2Loop bo stride fc (ofs : Int)
        (ends.map (fun x : Nat => (x : Int))) = some body
  | [], _, _ => ⟨[], rfl⟩
  | e :: rest, ofs, hval => by
    simp only [validEndsNat, Bool.and_eq_true, decide_eq_true_eq,
      beq_iff_eq] at hval
    obtain ⟨⟨⟨⟨h1, h2⟩, -⟩, -⟩, h5⟩ := hval
    obtain ⟨body, hbody⟩ := writeLoop_isSome_of_valid bo stride fc rest e h5
    exact ⟨WriteFlatCoords1 bo ((fc.take e).drop ofs) stride ++ body, by
      rw [List.map_cons, writeFlatCoords2Loop, goSlice_natCast fc ofs e h1 h2,
        hbody]⟩

/-! ## Claim theorems -/

/-- C1: for every byte stream, byte order and stride, if the 4-byte count
decoded by a Level-1 read exceeds `MaxGeometryElements[1]`, then
`ReadFlatCoords1` fails with `ErrGeometryTooLarge{Level: 1, N: n, Limit:
MaxGeometryElements[1]}` without reading anything past the 4 count bytes
(the remainder of the stream is arbitrary and unexamined); likewise at
Level 2 with `MaxGeometryElements[2]`. -/
theorem readFlatCoords_tooLarge_stopsReading (bo : ByteOrder) (stride : Nat)
    (c rest : List Nat) (h4 : c.length = 4) :
    (bo.decodeBytes c > MaxGeometryElements[1]! →
      ReadFlatCoords1 bo stride (c ++ rest) =
        .error (.geometryTooLarge 1 (bo.decodeBytes c) (MaxGeometryElements[1]!))) ∧
    (bo.decodeBytes c > MaxGeometryElements[2]! →
      ReadFlatCoords2 bo stride (c ++ rest) =
        .error (.geometryTooLarge 2 (bo.decodeBytes c) (MaxGeometryElements[2]!))) := by
  have hread : readUInt32 bo (c ++ rest) = .ok (bo.decodeBytes c, rest) := by
    rw [readUInt32, if_pos (by rw [List.length_append, h4]; omega),
      List.take_left' h4, List.drop_left' h4]
  constructor
  · intro h
    simp only [ReadFlatCoords1, hread]
    rw [if_pos h]
  · intro h
    simp only [ReadFlatCoords2, hread]
    rw [if_pos h]

/-- C1 witness: a count of `0xFFFFFFFF` exceeds both limits, and the
error is reported with the stream bytes after the count untouched. -/
theorem readFlatCoords_tooLarge_stopsReading_witness :
    ReadFlatCoords1 XDR 2 ([255, 255, 255, 255] ++ [7, 7, 7, 7]) =
      .error (.geometryTooLarge 1 4294967295 1048576) ∧
    ReadFlatCoords2 XDR 2 ([255, 255, 255, 255] ++ [7, 7, 7, 7]) =
      .error (.geometryTooLarge 2 4294967295 32768) := by
  have h := readFlatCoords_tooLarge_stopsReading XDR 2 [255, 255, 255, 255]
    [7, 7, 7, 7] (by decide)
  exact ⟨(h.1 (by decide)).trans (by decide), (h.2 (by decide)).trans (by decide)⟩

/-- C2 counterexample: the Level-1 roundtrip fails as universally stated.
With stride 1 (so the length is trivially a multiple of the stride) and
`2^20 + 1` coordinates, the write succeeds but reading the produced bytes
back fails with `ErrGeometryTooLarge` instead of returning the
coordinates, because the written count exceeds `MaxGeometryElements[1]`. -/
theorem writeRead1_roundtrip_counterexample :
    (List.replicate (2 ^ 20 + 1) (0 : Nat)).length % 1 = 0 ∧
    ReadFlatCoords1 XDR 1
        (WriteFlatCoords1 XDR (List.replicate (2 ^ 20 + 1) (0 : Nat)) 1) =
      .error (.geometryTooLarge 1 (2 ^ 20 + 1) (2 ^ 20)) := by
  refine ⟨Nat.mod_one _, ?_⟩
  have hlen : (List.replicate (2 ^ 20 + 1) (0 : Nat)).length = 2 ^ 20 + 1 :=
    List.length_replicate _ _
  have hn : (2 ^ 20 + 1) / 1 % 2 ^ 32 % 2 ^ 32 = 2 ^ 20 + 1 := by norm_num
  rw [ReadFlatCoords1, WriteFlatCoords1, hlen, readUInt32_encode]
  simp only [hn]
  rw [if_pos (by rw [maxGeometryElements_one]; decide), maxGeometryElements_one]

/-- C2 (amended): the Level-1 roundtrip holds for any positive stride and
any FlatCoords of 64-bit scalars whose length is a multiple of the
stride, provided the tuple count `len/stride` does not exceed
`MaxGeometryElements[1]`; the read returns the original coordinates
bit-identically and leaves the rest of the stream untouched. -/
theorem writeRead1_roundtrip_bounded (bo : ByteOrder) (stride : Nat)
    (coords rest : List Nat) (_h0 : 0 < stride) (hd : stride ∣ coords.length)
    (hn : coords.length / stride ≤ MaxGeometryElements[1]!)
    (hv : ∀ v ∈ coords, v < 2 ^ 64) :
    ReadFlatCoords1 bo stride (WriteFlatCoords1 bo coords stride ++ rest) =
      .ok (coords, rest) :=
  read1_of_write1 bo stride coords rest hd hn hv

/-- C2 witness: a concrete stride-2 roundtrip. -/
theorem writeRead1_roundtrip_bounded_witness :
    ReadFlatCoords1 XDR 2 (WriteFlatCoords1 XDR [1, 2, 3, 4] 2 ++ []) =
      .ok ([1, 2, 3, 4], []) :=
  writeRead1_roundtrip_bounded XDR 2 [1, 2, 3, 4] [] (by decide) (by decide)
    (by decide) (by decide)

/-- C3 counterexample: the Level-2 roundtrip fails as universally stated.
`ends = [1, 2]` is a partition of the two-scalar buffer `[0, 0]`, but
with stride 2 the sub-array boundaries cut a tuple in half: each block is
written with count `uint32(1/2) = 0` yet one scalar of payload, and
reading the produced bytes back yields empty coordinates, ends `[0, 0]`
and 16 leftover bytes instead of the original data. -/
theorem writeRead2_roundtrip_counterexample :
    (WriteFlatCoords2 XDR [0, 0] [(1 : Int), 2] 2).map (ReadFlatCoords2 XDR 2) =
      some (.ok ([], [0, 0], List.replicate 16 0)) ∧
    ¬ (([] : List Nat) = [0, 0] ∧ ([(0 : Int), 0]) = [(1 : Int), 2]) := by
  decide

/-- C3 (amended): the Level-2 roundtrip holds for every stride-aligned
partition: if `ends` (as list offsets) is monotone, ends exactly at the
buffer's length, every sub-array length is a multiple of the stride with
at most `MaxGeometryElements[1]` tuples, the number of sub-arrays is at
most `MaxGeometryElements[2]`, and the scalars are 64-bit patterns, then
`WriteFlatCoords2` succeeds and `ReadFlatCoords2` on its output
reproduces both the FlatCoords and the Ends exactly. -/
theorem writeRead2_roundtrip_valid (bo : ByteOrder) (stride : Nat)
    (fc : List Nat) (ends : List Nat) (rest : List Nat)
    (hv : ∀ v ∈ fc, v < 2 ^ 64)
    (hval : validEndsNat fc.length stride 0 ends = true)
    (hcnt : ends.length ≤ MaxGeometryElements[2]!) :
    ∃ bs, WriteFlatCoords2 bo fc (ends.map (fun x : Nat => (x : Int))) stride =
        some bs ∧
      ReadFlatCoords2 bo stride (bs ++ rest) =
        .ok (fc, ends.map (fun x : Nat => (x : Int)), rest) := by
  obtain ⟨body, hbody⟩ := writeLoop_isSome_of_valid bo stride fc ends 0 hval
  have hbody0 : writeFlatCoords2Loop bo stride fc 0
      (ends.map (fun x : Nat => (x : Int))) = some body := by
    simpa using hbody
  have hLmap : (ends.map (fun x : Nat => (x : Int))).length = ends.length :=
    List.length_map _ _
  have hlt32 : ends.length < 2 ^ 32 := by
    have h := hcnt
    rw [maxGeometryElements_two] at h
    calc ends.length ≤ 2 ^ 15 := h
      _ < 2 ^ 32 := by norm_num
  have hmod : ends.length % 2 ^ 32 = ends.length := Nat.mod_eq_of_lt hlt32
  refine ⟨bo.encodeBytes 4 (ends.length % 2 ^ 32) ++ body, ?_, ?_⟩
  · simp only [WriteFlatCoords2, hbody0, hLmap]
  · have hloop := writeReadLoop bo stride fc hv ends [] [] body rest hval hbody
    rw [ReadFlatCoords2, hmod, List.append_assoc, readUInt32_encode]
    simp only [hmod]
    rw [if_neg (Nat.not_lt.mpr hcnt)]
    simpa using hloop

/-- C3 witness: a concrete stride-2 two-block roundtrip. -/
theorem writeRead2_roundtrip_valid_witness :
    ∃ bs, WriteFlatCoords2 XDR [1, 2, 3, 4, 5, 6]
        (([2, 6] : List Nat).map (fun x : Nat => (x : Int))) 2 = some bs ∧
      ReadFlatCoords2 XDR 2 (bs ++ []) =
        .ok ([1, 2, 3, 4, 5, 6],
             ([2, 6] : List Nat).map (fun x : Nat => (x : Int)), []) :=
  writeRead2_roundtrip_valid XDR 2 [1, 2, 3, 4, 5, 6] [2, 6] [] (by decide)
    (by decide) (by decide)

/-- C4 counterexample: a successful Level-2 read whose Ends sequence is
not strictly increasing.  The stream declares two inner blocks, both
with count 0, so the read succeeds with Ends `[0, 0]`. -/
theorem readFlatCoords2_ends_strict_counterexample :
    ReadFlatCoords2 XDR 2 [0, 0, 0, 2, 0, 0, 0, 0, 0, 0, 0, 0] =
      .ok ([], [0, 0], []) ∧
    ¬ List.Chain' (· < ·) [(0 : Int), 0] := by
  refine ⟨by decide, ?_⟩
  simp [List.chain'_cons]

/-- C4 (amended): for every successful Level-2 read, the returned Ends
sequence is non-decreasing (consecutive entries are equal exactly when an
inner block is empty), its last element (0 when Ends is empty) equals the
length of the returned FlatCoords, and its number of entries equals the
decoded outer count `n`. -/
theorem readFlatCoords2_ends_invariant (bo : ByteOrder) (stride : Nat)
    (s fc : List Nat) (ends : List Int) (rest : List Nat)
    (h : ReadFlatCoords2 bo stride s = .ok (fc, ends, rest)) :
    List.Chain' (· ≤ ·) ends ∧ lastOr 0 ends = (fc.length : Int) ∧
    ∃ n s1, readUInt32 bo s = .ok (n, s1) ∧ ends.length = n := by
  rw [ReadFlatCoords2] at h
  cases hu : readUInt32 bo s with
  | error e => rw [hu] at h; cases h
  | ok p =>
    obtain ⟨n, s1⟩ := p
    rw [hu] at h
    have h2 : (if n > MaxGeometryElements[2]! then
        (Except.error (WkbError.geometryTooLarge 2 n (MaxGeometryElements[2]!)) :
          Except WkbError (List Nat × List Int × List Nat))
      else readFlatCoords2Loop bo stride n s1 [] []) = .ok (fc, ends, rest) := h
    by_cases hbig : n > MaxGeometryElements[2]!
    · rw [if_pos hbig] at h2; cases h2
    · rw [if_neg hbig] at h2
      obtain ⟨newEnds, hends, hlen, hchain, hlast⟩ :=
        readLoop_spec bo stride n s1 [] [] fc ends rest h2
      rw [List.nil_append] at hends
      subst hends
      exact ⟨hchain.tail, hlast, n, s1, rfl, hlen⟩

/-- C4 witness: a stride-1 stream with one single-scalar block. -/
theorem readFlatCoords2_ends_invariant_witness :
    List.Chain' (· ≤ ·) [(1 : Int)] ∧
    lastOr 0 [(1 : Int)] = (([1] : List Nat).length : Int) ∧
    ∃ n s1,
      readUInt32 XDR [0, 0, 0, 1, 0, 0, 0, 1, 0, 0, 0, 0, 0, 0, 0, 1] =
        .ok (n, s1) ∧ ([(1 : Int)] : List Int).length = n :=
  readFlatCoords2_ends_invariant XDR 1
    [0, 0, 0, 1, 0, 0, 0, 1, 0, 0, 0, 0, 0, 0, 0, 1] [1] [(1 : Int)] []
    (by decide)

/-- C5: a Level-2 read that fails never returns a partial result — the
result type carries either a value or an error, and the code returns
`(nil, nil, err)` — and the failure is exactly the failing sub-read's
error, propagated unchanged: if the outer count read fails with `e`,
`ReadFlatCoords2` fails with `e`; if the count passes the bounds check
and the `j`-th inner `ReadFlatCoords1` (after `j` successful blocks)
fails with `e` — including an inner bounds failure — `ReadFlatCoords2`
fails with that same `e`. -/
theorem readFlatCoords2_error_propagation (bo : ByteOrder) (stride : Nat)
    (s : List Nat) :
    (∀ e, readUInt32 bo s = .error e → ReadFlatCoords2 bo stride s = .error e) ∧
    (∀ n s1 j s2 e, readUInt32 bo s = .ok (n, s1) →
      ¬ n > MaxGeometryElements[2]! → j < n →
      readBlocks bo stride j s1 = .ok s2 →
      ReadFlatCoords1 bo stride s2 = .error e →
      ReadFlatCoords2 bo stride s = .error e) := by
  constructor
  · intro e he
    rw [ReadFlatCoords2, he]
  · intro n s1 j s2 e hu hn hj hb hr
    simp only [ReadFlatCoords2, hu]
    rw [if_neg hn]
    exact readLoop_error bo stride j n s1 s2 [] [] e hj hb hr

/-- C5 witness: an inner failure (empty stream after the outer count) and
an outer count failure (2-byte stream) both surface as the stream error. -/
theorem readFlatCoords2_error_propagation_witness :
    ReadFlatCoords2 XDR 2 [0, 0, 0, 1] = .error .ioError ∧
    ReadFlatCoords2 XDR 2 [0, 1] = .error .ioError :=
  ⟨(readFlatCoords2_error_propagation XDR 2 [0, 0, 0, 1]).2 1 [] 0 []
      .ioError (by decide) (by decide) (by decide) (by decide) (by decide),
    (readFlatCoords2_error_propagation XDR 2 [0, 1]).1 .ioError (by decide)⟩

/-- C6: with stride 2 and big-endian order, writing the FlatCoords whose
scalars are the IEEE-754 bit patterns of 1.0, 2.0, 3.0, 4.0 produces the
4-byte count `0x00000002` followed by the four 8-byte big-endian
encodings, and reading those bytes back returns the same FlatCoords. -/
theorem writeRead1_concrete_scenario :
    WriteFlatCoords1 XDR
        [0x3FF0000000000000, 0x4000000000000000,
         0x4008000000000000, 0x4010000000000000] 2 =
      [0x00, 0x00, 0x00, 0x02,
       0x3F, 0xF0, 0, 0, 0, 0, 0, 0,
       0x40, 0x00, 0, 0, 0, 0, 0, 0,
       0x40, 0x08, 0, 0, 0, 0, 0, 0,
       0x40, 0x10, 0, 0, 0, 0, 0, 0] ∧
    ReadFlatCoords1 XDR 2
        [0x00, 0x00, 0x00, 0x02,
         0x3F, 0xF0, 0, 0, 0, 0, 0, 0,
         0x40, 0x00, 0, 0, 0, 0, 0, 0,
         0x40, 0x08, 0, 0, 0, 0, 0, 0,
         0x40, 0x10, 0, 0, 0, 0, 0, 0] =
      .ok ([0x3FF0000000000000, 0x4000000000000000,
            0x4008000000000000, 0x4010000000000000], []) := by
  decide

/-- C7: byte-order resolution maps id 0 to big-endian and id 1 to
little-endian, and fails with `ErrUnknownByteOrder(id)` on any other id. -/
theorem resolveByteOrder_spec :
    resolveByteOrder XDRID = .ok XDR ∧ resolveByteOrder NDRID = .ok NDR ∧
    ∀ id : Nat, id ≠ XDRID → id ≠ NDRID →
      resolveByteOrder id = .error (.unknownByteOrder id) := by
  refine ⟨rfl, rfl, fun id h0 h1 => ?_⟩
  rw [resolveByteOrder, if_neg h0, if_neg h1]

/-- C7 witness: id 99 fails with `ErrUnknownByteOrder(99)`. -/
theorem resolveByteOrder_spec_witness :
    resolveByteOrder 99 = .error (.unknownByteOrder 99) :=
  resolveByteOrder_spec.2.2 99 (by decide) (by decide)

/-- C8: the bounds table `MaxGeometryElements` has exactly four entries,
indexed by nesting level 0..3, with values 0, 2^20 = 1048576,
2^15 = 32768 and 2^10 = 1024. -/
theorem maxGeometryElements_table :
    MaxGeometryElements.size = 4 ∧
    MaxGeometryElements = #[0, 2 ^ 20, 2 ^ 15, 2 ^ 10] ∧
    MaxGeometryElements[0]! = 0 ∧ MaxGeometryElements[1]! = 1048576 ∧
    MaxGeometryElements[2]! = 32768 ∧ MaxGeometryElements[3]! = 1024 := by
  decide

/-- C9: for a coords list whose length is not a multiple of the stride,
`WriteFlatCoords1` still produces output: the count field encodes
`uint32(len(coords)/stride)` (which is `⌊len/stride⌋` for all counts
below `2^32`), yet all `len(coords)` scalars (8 bytes each) follow, and
that scalar count disagrees with the count field
(`(len/stride mod 2^32) * stride ≠ len`), so the block is not well-formed. -/
theorem writeFlatCoords1_misaligned (bo : ByteOrder) (stride : Nat)
    (coords : List Nat) (_h0 : 0 < stride) (hnd : ¬ stride ∣ coords.length) :
    WriteFlatCoords1 bo coords stride =
      bo.encodeBytes 4 ((coords.length / stride) % 2 ^ 32) ++
        encodeScalars bo coords ∧
    (encodeScalars bo coords).length = 8 * coords.length ∧
    (coords.length / stride % 2 ^ 32) * stride ≠ coords.length := by
  have hle : coords.length / stride * stride ≤ coords.length :=
    Nat.div_mul_le_self _ _
  have hne : coords.length / stride * stride ≠ coords.length := fun hEq =>
    hnd ⟨coords.length / stride, by rw [Nat.mul_comm]; exact hEq.symm⟩
  have hmle : coords.length / stride % 2 ^ 32 ≤ coords.length / stride :=
    Nat.mod_le _ _
  have hmul : (coords.length / stride % 2 ^ 32) * stride ≤
      coords.length / stride * stride := Nat.mul_le_mul_right _ hmle
  refine ⟨rfl, encodeScalars_length bo coords, fun hEq => ?_⟩
  rw [hEq] at hmul
  exact hne (le_antisymm hle hmul)

/-- C9 witness: one scalar with stride 2 — count field 0, payload 8 bytes. -/
theorem writeFlatCoords1_misaligned_witness :
    WriteFlatCoords1 XDR [5] 2 =
      XDR.encodeBytes 4 ((([5] : List Nat).length / 2) % 2 ^ 32) ++
        encodeScalars XDR [5] ∧
    (encodeScalars XDR [5]).length = 8 * ([5] : List Nat).length ∧
    (([5] : List Nat).length / 2 % 2 ^ 32) * 2 ≠ ([5] : List Nat).length :=
  writeFlatCoords1_misaligned XDR 2 [5] (by decide) (by decide)

/-- C10: if `ends` is non-decreasing, all entries non-negative, and its
last entry at most `len(flatCoords)`, then every slice
`flatCoords[offset:end]` walked by `WriteFlatCoords2` is within bounds,
so the operation is total (returns `some`, never the panic `none`). -/
theorem writeFlatCoords2_total_of_bounds (bo : ByteOrder) (stride : Nat)
    (fc : List Nat) (ends : List Int)
    (hchain : List.Chain' (· ≤ ·) ends)
    (hnn : ∀ e ∈ ends, (0 : Int) ≤ e)
    (hlast : lastOr 0 ends ≤ (fc.length : Int)) :
    ∃ bs, WriteFlatCoords2 bo fc ends stride = some bs := by
  have hchain0 : List.Chain' (· ≤ ·) ((0 : Int) :: ends) := by
    rw [List.chain'_cons']
    exact ⟨fun y hy => hnn y (List.mem_of_mem_head? hy), hchain⟩
  obtain ⟨body, hbody⟩ := writeLoop_isSome_of_chain bo stride fc ends 0
    le_rfl hchain0 hlast
  exact ⟨_, by rw [WriteFlatCoords2, hbody]⟩

/-- C10 witness: a monotone in-bounds partition of a 3-scalar buffer. -/
theorem writeFlatCoords2_total_of_bounds_witness :
    ∃ bs, WriteFlatCoords2 XDR [1, 2, 3] [(1 : Int), 3] 2 = some bs :=
  writeFlatCoords2_total_of_bounds XDR 2 [1, 2, 3] [(1 : Int), 3]
    (by norm_num [List.chain'_cons]) (by decide) (by decide)
